import Mathlib

set_option maxRecDepth 10000

namespace HyperOps

/-- Errors returned by Kubernetes client calls, as the Go code classifies them:
`notFound` (apierrors.IsNotFound), `conflict` (apierrors.IsConflict),
`waitTimeout` (wait.ErrWaitTimeout returned by wait.ExponentialBackoff when the
retry budget is exhausted), and any other error carrying its message. -/
inductive Err where
  | notFound
  | conflict
  | waitTimeout
  | other (msg : String)
deriving DecidableEq, Repr

/-- client.IgnoreNotFound: maps a notFound error to nil (none) and keeps every
other error. -/
def ignoreNotFound (e : Err) : Option Err :=
  if e = Err.notFound then none else some e

/-- Outcome of one controllerutil.CreateOrUpdate attempt: either success with an
OperationResult string, or failure with an error.  On failure CreateOrUpdate
returns controllerutil.OperationResultNone. -/
inductive CouOutcome where
  | ok (res : String)
  | fail (e : Err)
deriving DecidableEq, Repr

/-- controllerutil.OperationResultNone. -/
def operationResultNone : String := "unchanged"

/-- retry.DefaultBackoff has Steps = 4 (Duration 10ms, Factor 5.0, Jitter 0.1);
wait.ExponentialBackoff runs the condition at most Steps times. -/
def retryDefaultBackoffSteps : Nat := 4

/-- The loop of wait.ExponentialBackoff specialised to the condition closure in
CreateOrUpdateWithRetries: each iteration runs controllerutil.CreateOrUpdate
(the oracle `attempts`, indexed by attempt number); success returns nil, a
non-conflict error returns that error, a conflict continues; when the step
budget runs out the loop returns wait.ErrWaitTimeout.  Result: the last
operationResult, the returned error, and the number of attempts executed. -/
def exponentialBackoffLoop (attempts : Nat → CouOutcome) :
    Nat → Nat → String → String × Option Err × Nat
  | 0, _, opRes => (opRes, some Err.waitTimeout, 0)
  | steps+1, i, _ =>
    match attempts i with
    | .ok r => (r, none, 1)
    | .fail e =>
      if e = Err.conflict then
        let t := exponentialBackoffLoop attempts steps (i+1) operationResultNone
        (t.1, t.2.1, t.2.2 + 1)
      else (operationResultNone, some e, 1)

/-- CreateOrUpdateWithRetries (controllers/utils.go): runs the fetch-mutate-write
cycle under wait.ExponentialBackoff with retry.DefaultBackoff, retrying only on
optimistic-concurrency conflicts.  Returns (operationResult, error). -/
def CreateOrUpdateWithRetries (attempts : Nat → CouOutcome) : String × Option Err :=
  let t := exponentialBackoffLoop attempts retryDefaultBackoffSteps 0 ""
  (t.1, t.2.1)

/-- Number of CreateOrUpdate attempts that CreateOrUpdateWithRetries executes
against the cluster for a given attempt oracle. -/
def createOrUpdateCallCount (attempts : Nat → CouOutcome) : Nat :=
  (exponentialBackoffLoop attempts retryDefaultBackoffSteps 0 "").2.2

theorem exponentialBackoffLoop_ok (attempts : Nat → CouOutcome) :
    ∀ (k steps i : Nat) (opRes r : String), k < steps →
    attempts (i + k) = .ok r →
    (∀ j < k, attempts (i + j) = .fail Err.conflict) →
    exponentialBackoffLoop attempts steps i opRes = (r, none, k + 1) := by
  intro k
  induction k with
  | zero =>
    intro steps i opRes r hk hok _
    match steps, hk with
    | steps+1, _ =>
      have hok0 : attempts i = CouOutcome.ok r := by simpa using hok
      simp only [exponentialBackoffLoop]
      rw [hok0]
  | succ k ih =>
    intro steps i opRes r hk hok hconf
    match steps, hk with
    | steps+1, hk =>
      have h0 : attempts i = .fail Err.conflict := hconf 0 (Nat.succ_pos k)
      simp only [exponentialBackoffLoop]
      rw [h0]
      simp only [if_pos rfl]
      have hrec := ih steps (i+1) operationResultNone r (Nat.lt_of_succ_lt_succ hk)
        (by rw [show i + 1 + k = i + (k+1) by omega]; exact hok)
        (by intro j hj
            rw [show i + 1 + j = i + (j+1) by omega]
            exact hconf (j+1) (Nat.succ_lt_succ hj))
      simp [hrec]

theorem exponentialBackoffLoop_nonconflict (attempts : Nat → CouOutcome) :
    ∀ (k steps i : Nat) (opRes : String) (e : Err), k < steps →
    e ≠ Err.conflict →
    attempts (i + k) = .fail e →
    (∀ j < k, attempts (i + j) = .fail Err.conflict) →
    exponentialBackoffLoop attempts steps i opRes =
      (operationResultNone, some e, k + 1) := by
  intro k
  induction k with
  | zero =>
    intro steps i opRes e hk hne hfail _
    match steps, hk with
    | steps+1, _ =>
      have hfail0 : attempts i = CouOutcome.fail e := by simpa using hfail
      simp only [exponentialBackoffLoop]
      rw [hfail0]
      simp [hne]
  | succ k ih =>
    intro steps i opRes e hk hne hfail hconf
    match steps, hk with
    | steps+1, hk =>
      have h0 : attempts i = .fail Err.conflict := hconf 0 (Nat.succ_pos k)
      simp only [exponentialBackoffLoop]
      rw [h0]
      simp only [if_pos rfl]
      have hrec := ih steps (i+1) operationResultNone e (Nat.lt_of_succ_lt_succ hk) hne
        (by rw [show i + 1 + k = i + (k+1) by omega]; exact hfail)
        (by intro j hj
            rw [show i + 1 + j = i + (j+1) by omega]
            exact hconf (j+1) (Nat.succ_lt_succ hj))
      simp [hrec]

theorem exponentialBackoffLoop_allConflict_aux (attempts : Nat → CouOutcome) :
    ∀ (steps i : Nat),
    (∀ j < steps, attempts (i + j) = .fail Err.conflict) →
    exponentialBackoffLoop attempts steps i operationResultNone =
      (operationResultNone, some Err.waitTimeout, steps) := by
  intro steps
  induction steps with
  | zero => intro i _; rfl
  | succ steps ih =>
    intro i hconf
    have h0 : attempts i = .fail Err.conflict := hconf 0 (Nat.succ_pos steps)
    simp only [exponentialBackoffLoop]
    rw [h0]
    simp only [if_pos rfl]
    have hrec := ih (i+1)
      (by intro j hj
          rw [show i + 1 + j = i + (j+1) by omega]
          exact hconf (j+1) (Nat.succ_lt_succ hj))
    simp [hrec]

theorem exponentialBackoffLoop_allConflict (attempts : Nat → CouOutcome)
    (steps i : Nat) (opRes : String) (hpos : 0 < steps)
    (hconf : ∀ j < steps, attempts (i + j) = .fail Err.conflict) :
    exponentialBackoffLoop attempts steps i opRes =
      (operationResultNone, some Err.waitTimeout, steps) := by
  match steps, hpos with
  | steps+1, _ =>
    have h0 : attempts i = .fail Err.conflict := hconf 0 (Nat.succ_pos steps)
    simp only [exponentialBackoffLoop]
    rw [h0]
    simp only [if_pos rfl]
    have hrec := exponentialBackoffLoop_allConflict_aux attempts steps (i+1)
      (by intro j hj
          rw [show i + 1 + j = i + (j+1) by omega]
          exact hconf (j+1) (Nat.succ_lt_succ hj))
    simp [hrec]

/-- C2: Upsert-With-Retry.  Three facts about CreateOrUpdateWithRetries:
(1) if the first non-conflict outcome within the 4-step budget is a failure
with a non-conflict error, that error is returned and no further attempt is
made (exactly k+1 attempts run); (2) if every attempt in the budget fails with
a conflict, the budget is exhausted and an error (wait.ErrWaitTimeout) is
surfaced to the caller after exactly 4 attempts; (3) if some attempt within the
budget succeeds after only conflicts, the call returns that operation result
with no error. -/
theorem C2_createOrUpdateWithRetries_spec (attempts : Nat → CouOutcome) :
    (∀ (k : Nat) (e : Err), k < retryDefaultBackoffSteps → e ≠ Err.conflict →
      attempts k = .fail e →
      (∀ j < k, attempts j = .fail Err.conflict) →
      CreateOrUpdateWithRetries attempts = (operationResultNone, some e) ∧
        createOrUpdateCallCount attempts = k + 1) ∧
    ((∀ j < retryDefaultBackoffSteps, attempts j = .fail Err.conflict) →
      CreateOrUpdateWithRetries attempts = (operationResultNone, some Err.waitTimeout) ∧
        createOrUpdateCallCount attempts = retryDefaultBackoffSteps) ∧
    (∀ (k : Nat) (r : String), k < retryDefaultBackoffSteps →
      attempts k = .ok r →
      (∀ j < k, attempts j = .fail Err.conflict) →
      CreateOrUpdateWithRetries attempts = (r, none)) := by
  refine ⟨?_, ?_, ?_⟩
  · intro k e hk hne hfail hconf
    have h := exponentialBackoffLoop_nonconflict attempts k retryDefaultBackoffSteps 0 "" e hk hne
      (by simpa using hfail) (by simpa using hconf)
    constructor
    · simp [CreateOrUpdateWithRetries, h]
    · simp [createOrUpdateCallCount, h]
  · intro hconf
    have h := exponentialBackoffLoop_allConflict attempts retryDefaultBackoffSteps 0 ""
      (by simp [retryDefaultBackoffSteps]) (by simpa using hconf)
    constructor
    · simp [CreateOrUpdateWithRetries, h]
    · simp [createOrUpdateCallCount, h]
  · intro k r hk hok hconf
    have h := exponentialBackoffLoop_ok attempts k retryDefaultBackoffSteps 0 "" r hk
      (by simpa using hok) (by simpa using hconf)
    simp [CreateOrUpdateWithRetries, h]

/-- C2 witness: with an oracle that conflicts on the first attempt and succeeds
on the second, the call returns the second result with no error, and a pure
non-conflict failure on attempt 0 is returned at once. -/
theorem C2_createOrUpdateWithRetries_spec_witness :
    CreateOrUpdateWithRetries
      (fun i => if i = 0 then .fail Err.conflict else .ok "updated") = ("updated", none) ∧
    CreateOrUpdateWithRetries (fun _ => .fail (Err.other "boom")) =
      (operationResultNone, some (Err.other "boom")) ∧
    createOrUpdateCallCount (fun _ => .fail (Err.other "boom")) = 1 := by
  refine ⟨?_, ?_, ?_⟩
  · exact (C2_createOrUpdateWithRetries_spec
      (fun i => if i = 0 then .fail Err.conflict else .ok "updated")).2.2 1 "updated"
      (by decide) (by decide) (by intro j hj; simp [Nat.lt_one_iff.mp hj])
  · exact ((C2_createOrUpdateWithRetries_spec (fun _ => .fail (Err.other "boom"))).1
      0 (Err.other "boom") (by decide) (by decide) (by decide)
      (by intro j hj; omega)).1
  · exact ((C2_createOrUpdateWithRetries_spec (fun _ => .fail (Err.other "boom"))).1
      0 (Err.other "boom") (by decide) (by decide) (by decide)
      (by intro j hj; omega)).2

/-- Label prefix constant hyperOpsLabel from the source. -/
def hyperOpsLabel : String := "hyper-ops.cloudmonkey.org"

/-- hyperOpsEnabledLabel = fmt.Sprintf of enabled under the hyper-ops label. -/
def hyperOpsEnabledLabel : String := hyperOpsLabel ++ "/enabled"

/-- hyperOpsGitopsNamespaceLabel = fmt.Sprintf of gitops-namespace under the
hyper-ops label. -/
def hyperOpsGitopsNamespaceLabel : String := hyperOpsLabel ++ "/gitops-namespace"

/-- argoCDSecretTypeLabel constant. -/
def argoCDSecretTypeLabel : String := "argocd.argoproj.io/secret-type"

/-- argoCDSecretTypeCluster constant. -/
def argoCDSecretTypeCluster : String := "cluster"

/-- hostedClusterServiceAccountName constant. -/
def hostedClusterServiceAccountName : String := "hyper-ops-admin"

/-- hostedClusterServiceAccountNamespace constant. -/
def hostedClusterServiceAccountNamespace : String := "kube-system"

/-- Initial value of the package-level mutable var gitOpsNamespace. -/
def initialGitOpsNamespace : String := "openshift-gitops"

/-- The hyper-ops type label key written onto ProjectedSecrets. -/
def hyperOpsTypeLabel : String := "hyper-ops.cloudmonkey.org/type"

/-- Fixed local API address passed to setupClusterConfig for the local cluster. -/
def localServerURL : String := "https://kubernetes.default.svc"

/-- Fixed name passed to setupClusterConfig for the local cluster. -/
def localClusterName : String := "in-cluster-local"

/-- A Go label map, modelled as an association list with unique keys in source
order (Go maps have unique keys; lookup is first match). -/
abbrev Labels := List (String × String)

/-- Map lookup m[key]. -/
def labelsGet : Labels → String → Option String
  | [], _ => none
  | (k, v) :: rest, key => if k = key then some v else labelsGet rest key

/-- Map assignment m[key] = val: replaces the binding in place or appends. -/
def labelsSet : Labels → String → String → Labels
  | [], key, val => [(key, val)]
  | (k, v) :: rest, key, val =>
    if k = key then (key, val) :: rest else (k, v) :: labelsSet rest key val

/-- strings.HasPrefix on character lists: the second list is a leading
segment of the first. -/
def strStartsAux : List Char → List Char → Bool
  | _, [] => true
  | [], _ :: _ => false
  | c :: cs, p :: ps => c = p && strStartsAux cs ps

/-- strings.HasPrefix(s, pre).  Equivalent to String.startsWith on these
ASCII label keys; written over character lists so that concrete runs reduce. -/
def strStarts (s pre : String) : Bool := strStartsAux s.toList pre.toList

/-- Go byte slices, as lists of byte values. -/
abbrev Bytes := List Nat

/-- The URL-safe base64 alphabet used by encoding/base64 URLEncoding. -/
def base64URLAlphabet : List Char :=
  "ABCDEFGHIJKLMNOPQRSTUVWXYZabcdefghijklmnopqrstuvwxyz0123456789-_".toList

/-- Index into the URL-safe base64 alphabet. -/
def b64Char (n : Nat) : Char := base64URLAlphabet.getD n 'A'

/-- base64.URLEncoding.EncodeToString: standard padded base64 over the URL-safe
alphabet, three input bytes per four output characters. -/
def base64URLEncode : Bytes → String
  | [] => ""
  | [b0] =>
    let c0 := b0 % 256
    String.mk [b64Char (c0 / 4), b64Char (c0 % 4 * 16), '=', '=']
  | [b0, b1] =>
    let c0 := b0 % 256
    let c1 := b1 % 256
    String.mk [b64Char (c0 / 4), b64Char (c0 % 4 * 16 + c1 / 16),
      b64Char (c1 % 16 * 4), '=']
  | b0 :: b1 :: b2 :: rest =>
    let c0 := b0 % 256
    let c1 := b1 % 256
    let c2 := b2 % 256
    String.mk [b64Char (c0 / 4), b64Char (c0 % 4 * 16 + c1 / 16),
      b64Char (c1 % 16 * 4 + c2 / 64), b64Char (c2 % 64)] ++ base64URLEncode rest

/-- The fetched HostedCluster record: name, label map, and whether the
DeletionTimestamp is set. -/
structure HostedCluster where
  name : String
  labels : Labels
  deleting : Bool
deriving DecidableEq, Repr

/-- ctrl.Request: the name and namespace delivered to Reconcile. -/
structure Request where
  name : String
  namespaceName : String
deriving DecidableEq, Repr

/-- TLSClientConfig struct (json tag caData). -/
structure TLSClientConfig where
  caData : String
deriving DecidableEq, Repr

/-- ClusterConfig struct (json tags bearerToken and tlsClientConfig). -/
structure ClusterConfig where
  bearerToken : String
  tlsClientConfig : TLSClientConfig
deriving DecidableEq, Repr

/-- Cluster struct built by setupClusterConfig. -/
structure Cluster where
  name : String
  server : String
  config : ClusterConfig
  hostedCluster : Option HostedCluster
deriving DecidableEq, Repr

/-- A value stored under a key of a Secret Data map: either the bytes of a Go
string, or the json.Marshal image of a ClusterConfig (kept at the value level;
encoding/json serialises this fixed shape as the JSON object with fields
bearerToken and tlsClientConfig.caData). -/
inductive DataVal where
  | rawStr (s : String)
  | jsonClusterConfig (c : ClusterConfig)
deriving DecidableEq, Repr

/-- Which call site (and hence which client) an effect belongs to: the local
path runs against the management client r.Client, the hosted path runs
bootstrap against the hosted cluster client. -/
inductive Site where
  | localSite
  | hostedSite
deriving DecidableEq, Repr

/-- Observable side effects of one Reconcile run against the clusters. -/
inductive Effect where
  | deleteSecret (name ns : String)
  | upsertArgoSecret (site : Site) (name ns : String) (labels : Labels)
      (data : List (String × DataVal))
  | upsertServiceAccount (site : Site) (name ns : String)
  | upsertClusterRoleBinding (site : Site) (name : String)
  | upsertTokenSecret (site : Site) (name ns : String)
  | getTokenSecret (site : Site) (name ns : String)
  | getKubeconfigSecret (name ns : String)
deriving DecidableEq, Repr

/-- Contents of the re-fetched service account token secret: the token bytes
(as a Go string) and the ca.crt bytes.  A missing key reads as empty. -/
structure TokenSecretData where
  token : String
  caCrt : Bytes
deriving DecidableEq, Repr

/-- Oracle for the client calls made by setupClusterConfig: attempt outcomes
for the three CreateOrUpdateWithRetries calls and the outcome of the token
secret Get. -/
structure BootstrapEnv where
  saAttempts : Nat → CouOutcome
  crbAttempts : Nat → CouOutcome
  tokenAttempts : Nat → CouOutcome
  tokenSecretGet : Except Err TokenSecretData

/-- setupClusterConfig: ensures the service account, the cluster role binding
and the token secret via CreateOrUpdateWithRetries (no-op mutate functions),
then re-fetches the token secret by the literal name hyper-ops-admin-token in
kube-system and fails when its token or ca.crt field is empty; on success
returns the Cluster value with the raw token and URL-base64 encoded CA. -/
def setupClusterConfig (site : Site) (env : BootstrapEnv) (server : String)
    (name : String) (hc : Option HostedCluster) : Except Err Cluster × List Effect :=
  let saEff := Effect.upsertServiceAccount site hostedClusterServiceAccountName
    hostedClusterServiceAccountNamespace
  match (CreateOrUpdateWithRetries env.saAttempts).2 with
  | some e => (.error e, [saEff])
  | none =>
    let crbEff := Effect.upsertClusterRoleBinding site hostedClusterServiceAccountName
    match (CreateOrUpdateWithRetries env.crbAttempts).2 with
    | some e => (.error e, [saEff, crbEff])
    | none =>
      let tokEff := Effect.upsertTokenSecret site
        (hostedClusterServiceAccountName ++ "-token") hostedClusterServiceAccountNamespace
      match (CreateOrUpdateWithRetries env.tokenAttempts).2 with
      | some e => (.error e, [saEff, crbEff, tokEff])
      | none =>
        let getEff := Effect.getTokenSecret site "hyper-ops-admin-token" "kube-system"
        let effs := [saEff, crbEff, tokEff, getEff]
        match env.tokenSecretGet with
        | .error e => (.error e, effs)
        | .ok d =>
          if d.token.length = 0 then
            (.error (Err.other "token not found"), effs)
          else if d.caCrt.length = 0 then
            (.error (Err.other "ca.crt not found"), effs)
          else
            (.ok { name := name, server := server,
                   config := { bearerToken := d.token,
                               tlsClientConfig := { caData := base64URLEncode d.caCrt } },
                   hostedCluster := hc },
             effs)

/-- Result of createArgoCDClusterSecret: the returned error, the label map
after the in-place mutation (the Go function aliases and mutates the map the
caller passed), and the emitted effects. -/
structure ArgoUpsertOut where
  err : Option Err
  labels : Labels
  effects : List Effect
deriving Repr

/-- createArgoCDClusterSecret: adds the argocd secret-type cluster label to the
given label map (mutating it in place), marshals the cluster config, and
upserts (via CreateOrUpdateWithRetries against r.Client) the secret named after
the cluster in the current gitOpsNamespace with data keys name, server, config. -/
def createArgoCDClusterSecret (site : Site) (gitOpsNS : String)
    (attempts : Nat → CouOutcome) (labels0 : Labels) (cluster : Cluster) :
    ArgoUpsertOut :=
  let argocdClusterLabels := labelsSet labels0 argoCDSecretTypeLabel argoCDSecretTypeCluster
  let jsonConfig := DataVal.jsonClusterConfig cluster.config
  let data := [("name", DataVal.rawStr cluster.name),
               ("server", DataVal.rawStr cluster.server),
               ("config", jsonConfig)]
  let eff := Effect.upsertArgoSecret site cluster.name gitOpsNS argocdClusterLabels data
  { err := (CreateOrUpdateWithRetries attempts).2,
    labels := argocdClusterLabels,
    effects := [eff] }

/-- One named cluster entry of a parsed kubeconfig document, keeping the only
field the code reads. -/
structure NamedCluster where
  server : String
deriving DecidableEq, Repr

/-- Result of running a piece of Go code: a runtime panic, an error return, or
a value. -/
inductive GoVal (α : Type) where
  | panics
  | fails (e : Err)
  | ok (a : α)
deriving DecidableEq, Repr

/-- getServerFromKubeConfig: yaml-unmarshals the kubeconfig (outcome supplied
as the parse result) and returns Clusters[0].Cluster.Server with no guard on
the index: an empty cluster list is an out-of-range access (runtime panic),
not an error return. -/
def getServerFromKubeConfig (parsed : Except Err (List NamedCluster)) : GoVal String :=
  match parsed with
  | .error e => .fails e
  | .ok clusters =>
    match clusters with
    | [] => .panics
    | c :: _ => .ok c.server

/-- Oracle for every external call one Reconcile run can make. -/
structure ReconcileEnv where
  hcGet : Except Err HostedCluster
  deleteResult : Option Err
  localBootstrap : BootstrapEnv
  localArgoAttempts : Nat → CouOutcome
  kubeconfigSecretGet : Except Err Unit
  clientForCluster : Option Err
  parsedKubeconfig : Except Err (List NamedCluster)
  hostedBootstrap : BootstrapEnv
  hostedArgoAttempts : Nat → CouOutcome

/-- Outcome of one Reconcile run. -/
inductive RunRes where
  | panicked
  | failed (e : Err)
  | ok
deriving DecidableEq, Repr

/-- Everything observable about one Reconcile run: the returned result, the
value of the package-level gitOpsNamespace var afterwards, the effect trace,
and the in-memory HostedCluster record at return (none when the fetch failed). -/
structure ReconcileOut where
  res : RunRes
  gitOpsNamespaceAfter : String
  effects : List Effect
  hcAfter : Option HostedCluster
deriving DecidableEq, Repr

/-- Maps a Go error return position err to the RunRes of a return statement
whose error operand is client.IgnoreNotFound(err). -/
def resIgnoreNotFound (e : Err) : RunRes :=
  match ignoreNotFound e with
  | none => RunRes.ok
  | some e2 => RunRes.failed e2

/-- Lines 369 to 374 of the controller: the value the package-level
gitOpsNamespace var holds after the label check of one reconcile of hc given
its current value; the gitops-namespace label overwrites it, absence of the
label leaves the current value in place. -/
def gitOpsNamespaceFor (hc : HostedCluster) (current : String) : String :=
  match labelsGet hc.labels hyperOpsGitopsNamespaceLabel with
  | some v => v
  | none => current

/-- The tail of Reconcile from the kubeconfig secret fetch on (lines 396 to
433): fetch the kubeconfig secret (its error filtered through IgnoreNotFound),
build the hosted client, read the server from the parsed kubeconfig, bootstrap
the hosted cluster, filter the HostedCluster label map in place to the
hyper-ops prefixed keys, add type = hosted, and upsert the hosted argocd
secret.  Returns the result, the effects of this phase, and the label map the
fetched HostedCluster record holds afterwards (the code mutates it through the
alias taken at line 420). -/
def hostedPath (req : Request) (ns : String) (env : ReconcileEnv) (hc : HostedCluster) :
    RunRes × List Effect × Labels :=
  let kcEffs := [Effect.getKubeconfigSecret (req.name ++ "-admin-kubeconfig") req.namespaceName]
  match env.kubeconfigSecretGet with
  | .error e => (resIgnoreNotFound e, kcEffs, hc.labels)
  | .ok _ =>
    match env.clientForCluster with
    | some e => (RunRes.failed e, kcEffs, hc.labels)
    | none =>
      match getServerFromKubeConfig env.parsedKubeconfig with
      | .panics => (RunRes.panicked, kcEffs, hc.labels)
      | .fails e => (RunRes.failed e, kcEffs, hc.labels)
      | .ok server =>
        let hostedSetup := setupClusterConfig Site.hostedSite env.hostedBootstrap
          server hc.name (some hc)
        match hostedSetup.1 with
        | .error e => (RunRes.failed e, kcEffs ++ hostedSetup.2, hc.labels)
        | .ok hostedCluster =>
          let filtered := hc.labels.filter (fun kv => strStarts kv.1 hyperOpsLabel)
          let hostedClusterLabels :=
            labelsSet filtered "hyper-ops.cloudmonkey.org/type" "hosted"
          let hostedArgo := createArgoCDClusterSecret Site.hostedSite ns
            env.hostedArgoAttempts hostedClusterLabels hostedCluster
          let effs := kcEffs ++ hostedSetup.2 ++ hostedArgo.effects
          match hostedArgo.err with
          | some e => (RunRes.failed e, effs, hostedArgo.labels)
          | none => (RunRes.ok, effs, hostedArgo.labels)

/-- Reconcile (controllers/hyperops_controller.go): fetch the HostedCluster
(not-found tolerated); on a deletion timestamp delete the projected secret in
the current gitOpsNamespace and stop; otherwise update the package-level
gitOpsNamespace from the gitops-namespace label when present; bootstrap and
upsert the local cluster unconditionally; stop successfully when the enabled
label is the string false; then run the hosted path. -/
def reconcile (req : Request) (gitOpsNS0 : String) (env : ReconcileEnv) : ReconcileOut :=
  match env.hcGet with
  | .error e =>
    { res := resIgnoreNotFound e, gitOpsNamespaceAfter := gitOpsNS0,
      effects := [], hcAfter := none }
  | .ok hc =>
    if hc.deleting then
      let effs := [Effect.deleteSecret req.name gitOpsNS0]
      match env.deleteResult with
      | some e =>
        { res := resIgnoreNotFound e, gitOpsNamespaceAfter := gitOpsNS0,
          effects := effs, hcAfter := some hc }
      | none =>
        { res := RunRes.ok, gitOpsNamespaceAfter := gitOpsNS0,
          effects := effs, hcAfter := some hc }
    else
      let ns := gitOpsNamespaceFor hc gitOpsNS0
      let localSetup := setupClusterConfig Site.localSite env.localBootstrap
        localServerURL localClusterName none
      match localSetup.1 with
      | .error e =>
        { res := RunRes.failed e, gitOpsNamespaceAfter := ns,
          effects := localSetup.2, hcAfter := some hc }
      | .ok localCluster =>
        let localClusterLabels := [("hyper-ops.cloudmonkey.org/type", "local")]
        let localArgo := createArgoCDClusterSecret Site.localSite ns
          env.localArgoAttempts localClusterLabels localCluster
        let effs1 := localSetup.2 ++ localArgo.effects
        match localArgo.err with
        | some e =>
          { res := RunRes.failed e, gitOpsNamespaceAfter := ns,
            effects := effs1, hcAfter := some hc }
        | none =>
          if labelsGet hc.labels hyperOpsEnabledLabel = some "false" then
            { res := RunRes.ok, gitOpsNamespaceAfter := ns,
              effects := effs1, hcAfter := some hc }
          else
            let hp := hostedPath req ns env hc
            { res := hp.1, gitOpsNamespaceAfter := ns,
              effects := effs1 ++ hp.2.1, hcAfter := some { hc with labels := hp.2.2 } }

/-- Attempt oracle where every CreateOrUpdate call succeeds at once. -/
def okAttempts : Nat → CouOutcome := fun _ => CouOutcome.ok "created"

/-- Bootstrap oracle where every call succeeds and the token secret holds a
token and a CA certificate. -/
def happyBootstrap : BootstrapEnv :=
  { saAttempts := okAttempts, crbAttempts := okAttempts, tokenAttempts := okAttempts,
    tokenSecretGet := .ok { token := "tok", caCrt := [1, 2, 3] } }

/-- Reconcile oracle where every external call succeeds. -/
def happyEnv (hc : HostedCluster) : ReconcileEnv :=
  { hcGet := .ok hc
    deleteResult := none
    localBootstrap := happyBootstrap
    localArgoAttempts := okAttempts
    kubeconfigSecretGet := .ok ()
    clientForCluster := none
    parsedKubeconfig := .ok [{ server := "https://api.example.com:6443" }]
    hostedBootstrap := happyBootstrap
    hostedArgoAttempts := okAttempts }

/-- Projections of the hosted-path argocd secret upserts out of an effect
trace: (name, namespace, labels, data) of each. -/
def hostedArgoSecrets (effs : List Effect) :
    List (String × String × Labels × List (String × DataVal)) :=
  effs.filterMap fun e => match e with
    | .upsertArgoSecret Site.hostedSite name ns ls d => some (name, ns, ls, d)
    | _ => none

/-- Projections of the local-path argocd secret upserts out of an effect
trace. -/
def localArgoSecrets (effs : List Effect) :
    List (String × String × Labels × List (String × DataVal)) :=
  effs.filterMap fun e => match e with
    | .upsertArgoSecret Site.localSite name ns ls d => some (name, ns, ls, d)
    | _ => none

/-- True for effects of the hosted provisioning path: any call against the
hosted cluster client or the hosted argocd secret upsert or the kubeconfig
secret fetch. -/
def isRemoteProvisioningEffect : Effect → Bool
  | .upsertArgoSecret Site.hostedSite _ _ _ _ => true
  | .upsertServiceAccount Site.hostedSite _ _ => true
  | .upsertClusterRoleBinding Site.hostedSite _ => true
  | .upsertTokenSecret Site.hostedSite _ _ => true
  | .getTokenSecret Site.hostedSite _ _ => true
  | .getKubeconfigSecret _ _ => true
  | _ => false

theorem setupClusterConfig_ok_iff (site : Site) (env : BootstrapEnv)
    (server name : String) (hc : Option HostedCluster) (c : Cluster) :
    (setupClusterConfig site env server name hc).1 = .ok c ↔
    ((CreateOrUpdateWithRetries env.saAttempts).2 = none ∧
     (CreateOrUpdateWithRetries env.crbAttempts).2 = none ∧
     (CreateOrUpdateWithRetries env.tokenAttempts).2 = none ∧
     ∃ d, env.tokenSecretGet = .ok d ∧ d.token.length ≠ 0 ∧ d.caCrt.length ≠ 0 ∧
       c = { name := name, server := server,
             config := { bearerToken := d.token,
                         tlsClientConfig := { caData := base64URLEncode d.caCrt } },
             hostedCluster := hc }) := by
  cases hsa : (CreateOrUpdateWithRetries env.saAttempts).2 with
  | some e => simp [setupClusterConfig, hsa]
  | none =>
  cases hcrb : (CreateOrUpdateWithRetries env.crbAttempts).2 with
  | some e => simp [setupClusterConfig, hsa, hcrb]
  | none =>
  cases htok : (CreateOrUpdateWithRetries env.tokenAttempts).2 with
  | some e => simp [setupClusterConfig, hsa, hcrb, htok]
  | none =>
  cases hget : env.tokenSecretGet with
  | error e => simp [setupClusterConfig, hsa, hcrb, htok, hget]
  | ok d =>
    by_cases ht : d.token.length = 0
    · simp [setupClusterConfig, hsa, hcrb, htok, hget, ht]
    · by_cases hca : d.caCrt.length = 0
      · have hca2 : d.caCrt = [] := List.length_eq_zero.mp hca
        simp [setupClusterConfig, hsa, hcrb, htok, hget, ht, hca, hca2]
      · simp [setupClusterConfig, hsa, hcrb, htok, hget, ht, hca]
        constructor
        · intro h
          exact ⟨fun he => hca (by simp [he]), h.symm⟩
        · intro h
          exact h.2.symm

theorem setupClusterConfig_effects (site : Site) (env : BootstrapEnv)
    (server name : String) (hc : Option HostedCluster)
    (hsa : (CreateOrUpdateWithRetries env.saAttempts).2 = none)
    (hcrb : (CreateOrUpdateWithRetries env.crbAttempts).2 = none)
    (htok : (CreateOrUpdateWithRetries env.tokenAttempts).2 = none) :
    (setupClusterConfig site env server name hc).2 =
      [Effect.upsertServiceAccount site hostedClusterServiceAccountName
         hostedClusterServiceAccountNamespace,
       Effect.upsertClusterRoleBinding site hostedClusterServiceAccountName,
       Effect.upsertTokenSecret site (hostedClusterServiceAccountName ++ "-token")
         hostedClusterServiceAccountNamespace,
       Effect.getTokenSecret site "hyper-ops-admin-token" "kube-system"] := by
  cases hget : env.tokenSecretGet with
  | error e => simp [setupClusterConfig, hsa, hcrb, htok, hget]
  | ok d =>
    by_cases ht : d.token.length = 0
    · simp [setupClusterConfig, hsa, hcrb, htok, hget, ht]
    · by_cases hca : d.caCrt.length = 0
      · simp [setupClusterConfig, hsa, hcrb, htok, hget, ht, hca]
      · simp [setupClusterConfig, hsa, hcrb, htok, hget, ht, hca]

/-- The labels written on the hosted argocd secret: the HostedCluster labels
filtered to keys with the hyper-ops prefix, then type = hosted, then the
argocd secret-type = cluster label. -/
def hostedSecretLabels (hc : HostedCluster) : Labels :=
  labelsSet
    (labelsSet (hc.labels.filter (fun kv => strStarts kv.1 hyperOpsLabel))
      "hyper-ops.cloudmonkey.org/type" "hosted")
    argoCDSecretTypeLabel argoCDSecretTypeCluster

/-- The labels written on the local argocd secret. -/
def localSecretLabels : Labels :=
  labelsSet [("hyper-ops.cloudmonkey.org/type", "local")]
    argoCDSecretTypeLabel argoCDSecretTypeCluster

/-- The data map written on an argocd cluster secret for a Cluster value. -/
def argoSecretData (c : Cluster) : List (String × DataVal) :=
  [("name", DataVal.rawStr c.name),
   ("server", DataVal.rawStr c.server),
   ("config", DataVal.jsonClusterConfig c.config)]

theorem reconcile_enabled_run (req : Request) (ns0 : String) (env : ReconcileEnv)
    (hc : HostedCluster) (localC hostedC : Cluster) (server : String)
    (hhc : env.hcGet = .ok hc)
    (hdel : hc.deleting = false)
    (hlocal : (setupClusterConfig Site.localSite env.localBootstrap
      localServerURL localClusterName none).1 = .ok localC)
    (hlarg : (CreateOrUpdateWithRetries env.localArgoAttempts).2 = none)
    (hen : labelsGet hc.labels hyperOpsEnabledLabel ≠ some "false")
    (hkc : env.kubeconfigSecretGet = .ok ())
    (hcl : env.clientForCluster = none)
    (hserver : getServerFromKubeConfig env.parsedKubeconfig = .ok server)
    (hhost : (setupClusterConfig Site.hostedSite env.hostedBootstrap
      server hc.name (some hc)).1 = .ok hostedC)
    (hharg : (CreateOrUpdateWithRetries env.hostedArgoAttempts).2 = none) :
    reconcile req ns0 env =
      { res := RunRes.ok
        gitOpsNamespaceAfter := gitOpsNamespaceFor hc ns0
        effects :=
          (setupClusterConfig Site.localSite env.localBootstrap
            localServerURL localClusterName none).2 ++
          [Effect.upsertArgoSecret Site.localSite localC.name
            (gitOpsNamespaceFor hc ns0) localSecretLabels (argoSecretData localC)] ++
          [Effect.getKubeconfigSecret (req.name ++ "-admin-kubeconfig") req.namespaceName] ++
          (setupClusterConfig Site.hostedSite env.hostedBootstrap
            server hc.name (some hc)).2 ++
          [Effect.upsertArgoSecret Site.hostedSite hostedC.name
            (gitOpsNamespaceFor hc ns0) (hostedSecretLabels hc) (argoSecretData hostedC)]
        hcAfter := some { hc with labels := hostedSecretLabels hc } } := by
  simp only [reconcile, hostedPath, createArgoCDClusterSecret, hhc, hdel, hlocal, hlarg,
    hkc, hcl, hserver, hhost, hharg, Bool.false_eq_true, if_false, if_neg hen,
    localSecretLabels, hostedSecretLabels, argoSecretData]
  simp [List.append_assoc]

theorem labelsGet_labelsSet_self (ls : Labels) (k v : String) :
    labelsGet (labelsSet ls k v) k = some v := by
  induction ls with
  | nil => simp [labelsSet, labelsGet]
  | cons kv rest ih =>
    obtain ⟨k0, v0⟩ := kv
    by_cases h : k0 = k
    · simp [labelsSet, labelsGet, h]
    · simp [labelsSet, labelsGet, h, ih]

theorem labelsGet_labelsSet_other (ls : Labels) (k v k2 : String) (h : k2 ≠ k) :
    labelsGet (labelsSet ls k v) k2 = labelsGet ls k2 := by
  have h2 : k ≠ k2 := Ne.symm h
  induction ls with
  | nil => simp [labelsSet, labelsGet, h2]
  | cons kv rest ih =>
    obtain ⟨k0, v0⟩ := kv
    by_cases h0 : k0 = k
    · subst h0
      simp [labelsSet, labelsGet, h2]
    · simp [labelsSet, labelsGet, h0, ih]

theorem labelsGet_filter (ls : Labels) (p : String → Bool) (k : String) :
    labelsGet (ls.filter (fun kv => p kv.1)) k =
      if p k then labelsGet ls k else none := by
  induction ls with
  | nil => simp [labelsGet]
  | cons kv rest ih =>
    obtain ⟨k0, v0⟩ := kv
    by_cases hp : p k0
    · by_cases hk : k0 = k
      · subst hk
        simp [List.filter, labelsGet, hp]
      · simp [List.filter, labelsGet, hp, hk, ih]
    · by_cases hk : k0 = k
      · subst hk
        simp only [List.filter, hp, cond_false, labelsGet, ih]
        simp [labelsGet, hp]
      · simp [List.filter, labelsGet, hp, hk, ih]

theorem reconcile_enabled_run_full (req : Request) (ns0 : String) (env : ReconcileEnv)
    (hc : HostedCluster) (localC hostedC : Cluster) (server : String)
    (hhc : env.hcGet = .ok hc)
    (hdel : hc.deleting = false)
    (hlocal : (setupClusterConfig Site.localSite env.localBootstrap
      localServerURL localClusterName none).1 = .ok localC)
    (hlarg : (CreateOrUpdateWithRetries env.localArgoAttempts).2 = none)
    (hen : labelsGet hc.labels hyperOpsEnabledLabel ≠ some "false")
    (hkc : env.kubeconfigSecretGet = .ok ())
    (hcl : env.clientForCluster = none)
    (hserver : getServerFromKubeConfig env.parsedKubeconfig = .ok server)
    (hhost : (setupClusterConfig Site.hostedSite env.hostedBootstrap
      server hc.name (some hc)).1 = .ok hostedC)
    (hharg : (CreateOrUpdateWithRetries env.hostedArgoAttempts).2 = none) :
    reconcile req ns0 env =
      { res := RunRes.ok
        gitOpsNamespaceAfter := gitOpsNamespaceFor hc ns0
        effects :=
          [Effect.upsertServiceAccount Site.localSite hostedClusterServiceAccountName
             hostedClusterServiceAccountNamespace,
           Effect.upsertClusterRoleBinding Site.localSite hostedClusterServiceAccountName,
           Effect.upsertTokenSecret Site.localSite
             (hostedClusterServiceAccountName ++ "-token") hostedClusterServiceAccountNamespace,
           Effect.getTokenSecret Site.localSite "hyper-ops-admin-token" "kube-system",
           Effect.upsertArgoSecret Site.localSite localC.name
             (gitOpsNamespaceFor hc ns0) localSecretLabels (argoSecretData localC),
           Effect.getKubeconfigSecret (req.name ++ "-admin-kubeconfig") req.namespaceName,
           Effect.upsertServiceAccount Site.hostedSite hostedClusterServiceAccountName
             hostedClusterServiceAccountNamespace,
           Effect.upsertClusterRoleBinding Site.hostedSite hostedClusterServiceAccountName,
           Effect.upsertTokenSecret Site.hostedSite
             (hostedClusterServiceAccountName ++ "-token") hostedClusterServiceAccountNamespace,
           Effect.getTokenSecret Site.hostedSite "hyper-ops-admin-token" "kube-system",
           Effect.upsertArgoSecret Site.hostedSite hostedC.name
             (gitOpsNamespaceFor hc ns0) (hostedSecretLabels hc) (argoSecretData hostedC)]
        hcAfter := some { hc with labels := hostedSecretLabels hc } } := by
  have h1 := (setupClusterConfig_ok_iff _ _ _ _ _ _).mp hlocal
  have h2 := (setupClusterConfig_ok_iff _ _ _ _ _ _).mp hhost
  rw [reconcile_enabled_run req ns0 env hc localC hostedC server hhc hdel hlocal hlarg
    hen hkc hcl hserver hhost hharg]
  rw [setupClusterConfig_effects _ _ _ _ _ h1.1 h1.2.1 h1.2.2.1,
      setupClusterConfig_effects _ _ _ _ _ h2.1 h2.2.1 h2.2.2.1]
  simp

/-- Request for the resource named r1 in namespace clusters. -/
def reqR1 : Request := { name := "r1", namespaceName := "clusters" }

/-- Resource r1 with the enabled label and a gitops-namespace override. -/
def hcWithNS : HostedCluster :=
  { name := "r1",
    labels := [(hyperOpsEnabledLabel, "true"), (hyperOpsGitopsNamespaceLabel, "ns-a")],
    deleting := false }

/-- Resource r1 with only the enabled label. -/
def hcNoNS : HostedCluster :=
  { name := "r1", labels := [(hyperOpsEnabledLabel, "true")], deleting := false }

/-- Resource r1 carrying a deletion timestamp. -/
def hcDeleting : HostedCluster :=
  { name := "r1", labels := [(hyperOpsEnabledLabel, "true")], deleting := true }

/-- Resource r1 with the enabled label set to false. -/
def hcDisabled : HostedCluster :=
  { name := "r1", labels := [(hyperOpsEnabledLabel, "false")], deleting := false }

/-- Resource r1 with the enabled label and an unrelated label. -/
def hcExtraLabel : HostedCluster :=
  { name := "r1", labels := [(hyperOpsEnabledLabel, "true"), ("team", "a")], deleting := false }

/-- The Cluster value the local bootstrap produces under happyBootstrap. -/
def happyLocalCluster : Cluster :=
  { name := localClusterName, server := localServerURL,
    config := { bearerToken := "tok",
                tlsClientConfig := { caData := base64URLEncode [1, 2, 3] } },
    hostedCluster := none }

/-- The Cluster value the hosted bootstrap produces under happyEnv. -/
def happyHostedCluster (hc : HostedCluster) : Cluster :=
  { name := hc.name, server := "https://api.example.com:6443",
    config := { bearerToken := "tok",
                tlsClientConfig := { caData := base64URLEncode [1, 2, 3] } },
    hostedCluster := some hc }

/-- C7: Deletion: for every reconcile of a fetched resource carrying the
deletion marker whose delete call succeeds or reports not-found, the run
performs exactly one effect, the delete of the secret named after the request
in the currently configured target namespace, treats the not-found result as
success, returns success, and does no other work (no local registration, no
bootstrap, no upsert appear in the trace). -/
theorem C7_deletion (req : Request) (ns0 : String) (env : ReconcileEnv)
    (hc : HostedCluster)
    (hhc : env.hcGet = .ok hc) (hdel : hc.deleting = true)
    (hres : env.deleteResult = none ∨ env.deleteResult = some Err.notFound) :
    reconcile req ns0 env =
      { res := RunRes.ok, gitOpsNamespaceAfter := ns0,
        effects := [Effect.deleteSecret req.name ns0], hcAfter := some hc } := by
  rcases hres with h | h
  · simp [reconcile, hhc, hdel, h]
  · simp [reconcile, hhc, hdel, h, resIgnoreNotFound, ignoreNotFound]

/-- C7 witness: a deleting resource whose delete reports not-found yields
success with exactly the one delete effect. -/
theorem C7_deletion_witness :
    reconcile reqR1 initialGitOpsNamespace
      { happyEnv hcDeleting with deleteResult := some Err.notFound } =
      { res := RunRes.ok, gitOpsNamespaceAfter := initialGitOpsNamespace,
        effects := [Effect.deleteSecret reqR1.name initialGitOpsNamespace],
        hcAfter := some hcDeleting } :=
  C7_deletion reqR1 initialGitOpsNamespace _ hcDeleting rfl rfl (Or.inr rfl)

/-- C4: for every reconcile of a fetched, non-deleting resource whose local
bootstrap and local upsert succeed, the trace begins with the local cluster
bootstrap and the upsert of its ProjectedSecret labelled type local, with no
hypothesis on the enablement label; and when the enablement label value is the
string false, the run returns success right after that local registration:
its trace is exactly the local registration, containing no remote provisioning
effect and no hosted ProjectedSecret upsert. -/
theorem C4_unconditional_local_registration (req : Request) (ns0 : String)
    (env : ReconcileEnv) (hc : HostedCluster) (localC : Cluster)
    (hhc : env.hcGet = .ok hc) (hdel : hc.deleting = false)
    (hlocal : (setupClusterConfig Site.localSite env.localBootstrap
      localServerURL localClusterName none).1 = .ok localC)
    (hlarg : (CreateOrUpdateWithRetries env.localArgoAttempts).2 = none) :
    (∃ rest, (reconcile req ns0 env).effects =
      [Effect.upsertServiceAccount Site.localSite hostedClusterServiceAccountName
         hostedClusterServiceAccountNamespace,
       Effect.upsertClusterRoleBinding Site.localSite hostedClusterServiceAccountName,
       Effect.upsertTokenSecret Site.localSite
         (hostedClusterServiceAccountName ++ "-token") hostedClusterServiceAccountNamespace,
       Effect.getTokenSecret Site.localSite "hyper-ops-admin-token" "kube-system",
       Effect.upsertArgoSecret Site.localSite localC.name (gitOpsNamespaceFor hc ns0)
         localSecretLabels (argoSecretData localC)] ++ rest) ∧
    (labelsGet hc.labels hyperOpsEnabledLabel = some "false" →
      reconcile req ns0 env =
        { res := RunRes.ok
          gitOpsNamespaceAfter := gitOpsNamespaceFor hc ns0
          effects :=
            [Effect.upsertServiceAccount Site.localSite hostedClusterServiceAccountName
               hostedClusterServiceAccountNamespace,
             Effect.upsertClusterRoleBinding Site.localSite hostedClusterServiceAccountName,
             Effect.upsertTokenSecret Site.localSite
               (hostedClusterServiceAccountName ++ "-token") hostedClusterServiceAccountNamespace,
             Effect.getTokenSecret Site.localSite "hyper-ops-admin-token" "kube-system",
             Effect.upsertArgoSecret Site.localSite localC.name (gitOpsNamespaceFor hc ns0)
               localSecretLabels (argoSecretData localC)]
          hcAfter := some hc } ∧
      (reconcile req ns0 env).effects.filter isRemoteProvisioningEffect = []) := by
  have h1 := (setupClusterConfig_ok_iff _ _ _ _ _ _).mp hlocal
  have heff := setupClusterConfig_effects Site.localSite env.localBootstrap
    localServerURL localClusterName none h1.1 h1.2.1 h1.2.2.1
  constructor
  · by_cases hen : labelsGet hc.labels hyperOpsEnabledLabel = some "false"
    · refine ⟨[], ?_⟩
      simp only [reconcile, createArgoCDClusterSecret, hhc, hdel, hlocal, hlarg,
        Bool.false_eq_true, if_false, if_pos hen, heff]
      simp [localSecretLabels, argoSecretData]
    · refine ⟨(hostedPath req (gitOpsNamespaceFor hc ns0) env hc).2.1, ?_⟩
      simp only [reconcile, createArgoCDClusterSecret, hhc, hdel, hlocal, hlarg,
        Bool.false_eq_true, if_false, if_neg hen, heff]
      simp [localSecretLabels, argoSecretData]
  · intro hen
    constructor
    · simp only [reconcile, createArgoCDClusterSecret, hhc, hdel, hlocal, hlarg,
        Bool.false_eq_true, if_false, if_pos hen, heff]
      simp [localSecretLabels, argoSecretData]
    · simp only [reconcile, createArgoCDClusterSecret, hhc, hdel, hlocal, hlarg,
        Bool.false_eq_true, if_false, if_pos hen, heff]
      simp [localSecretLabels, argoSecretData, isRemoteProvisioningEffect]

/-- C4 witness: a resource with the enabled label set to false under an
all-success oracle yields exactly the local registration and success. -/
theorem C4_unconditional_local_registration_witness :
    reconcile reqR1 initialGitOpsNamespace (happyEnv hcDisabled) =
      { res := RunRes.ok
        gitOpsNamespaceAfter := gitOpsNamespaceFor hcDisabled initialGitOpsNamespace
        effects :=
          [Effect.upsertServiceAccount Site.localSite hostedClusterServiceAccountName
             hostedClusterServiceAccountNamespace,
           Effect.upsertClusterRoleBinding Site.localSite hostedClusterServiceAccountName,
           Effect.upsertTokenSecret Site.localSite
             (hostedClusterServiceAccountName ++ "-token") hostedClusterServiceAccountNamespace,
           Effect.getTokenSecret Site.localSite "hyper-ops-admin-token" "kube-system",
           Effect.upsertArgoSecret Site.localSite happyLocalCluster.name
             (gitOpsNamespaceFor hcDisabled initialGitOpsNamespace)
             localSecretLabels (argoSecretData happyLocalCluster)]
        hcAfter := some hcDisabled } :=
  ((C4_unconditional_local_registration reqR1 initialGitOpsNamespace (happyEnv hcDisabled)
    hcDisabled happyLocalCluster rfl rfl rfl rfl).2 rfl).1

/-- The happy oracle with the kubeconfig secret fetch failing. -/
def envKubeconfigErr (hc : HostedCluster) (e : Err) : ReconcileEnv :=
  { happyEnv hc with kubeconfigSecretGet := .error e }

/-- C5 counterexample: with the kubeconfig secret absent (not-found) for an
enabled resource, Reconcile returns success, not an error: the fetch error is
filtered through client.IgnoreNotFound, so absence is not propagated to the
caller, contradicting the claim.  No hosted ProjectedSecret is produced. -/
theorem C5_counterexample :
    (reconcile reqR1 initialGitOpsNamespace (envKubeconfigErr hcNoNS Err.notFound)).res
      = RunRes.ok ∧
    hostedArgoSecrets (reconcile reqR1 initialGitOpsNamespace
      (envKubeconfigErr hcNoNS Err.notFound)).effects = [] := by
  exact ⟨rfl, rfl⟩

/-- C5 corrected: when the kubeconfig secret fetch for an enabled resource
fails, no hosted ProjectedSecret is produced, and the error is propagated to
the caller only when it is not a not-found error; a not-found fetch result
(the secret is absent) yields success. -/
theorem C5_kubeconfig_fetch_error (req : Request) (ns0 : String) (env : ReconcileEnv)
    (hc : HostedCluster) (localC : Cluster) (e : Err)
    (hhc : env.hcGet = .ok hc) (hdel : hc.deleting = false)
    (hlocal : (setupClusterConfig Site.localSite env.localBootstrap
      localServerURL localClusterName none).1 = .ok localC)
    (hlarg : (CreateOrUpdateWithRetries env.localArgoAttempts).2 = none)
    (hen : labelsGet hc.labels hyperOpsEnabledLabel ≠ some "false")
    (hkc : env.kubeconfigSecretGet = .error e) :
    (reconcile req ns0 env).res =
      (if e = Err.notFound then RunRes.ok else RunRes.failed e) ∧
    hostedArgoSecrets (reconcile req ns0 env).effects = [] := by
  have h1 := (setupClusterConfig_ok_iff _ _ _ _ _ _).mp hlocal
  have heff := setupClusterConfig_effects Site.localSite env.localBootstrap
    localServerURL localClusterName none h1.1 h1.2.1 h1.2.2.1
  constructor
  · simp only [reconcile, hostedPath, createArgoCDClusterSecret, hhc, hdel, hlocal, hlarg,
      Bool.false_eq_true, if_false, if_neg hen, hkc]
    by_cases he : e = Err.notFound <;> simp [resIgnoreNotFound, ignoreNotFound, he]
  · simp only [reconcile, hostedPath, createArgoCDClusterSecret, hhc, hdel, hlocal, hlarg,
      Bool.false_eq_true, if_false, if_neg hen, hkc, heff]
    simp [hostedArgoSecrets, localSecretLabels, argoSecretData]

/-- C5 witness: a non-not-found fetch failure of the kubeconfig secret is
returned to the caller and no hosted secret upsert appears in the trace. -/
theorem C5_kubeconfig_fetch_error_witness :
    (reconcile reqR1 initialGitOpsNamespace
      (envKubeconfigErr hcNoNS (Err.other "denied"))).res =
      (if Err.other "denied" = Err.notFound then RunRes.ok
       else RunRes.failed (Err.other "denied")) ∧
    hostedArgoSecrets (reconcile reqR1 initialGitOpsNamespace
      (envKubeconfigErr hcNoNS (Err.other "denied"))).effects = [] :=
  C5_kubeconfig_fetch_error reqR1 initialGitOpsNamespace _ hcNoNS happyLocalCluster
    (Err.other "denied") rfl rfl rfl rfl (by decide) rfl

/-- Bootstrap oracle whose ensure steps succeed but whose re-fetched token
secret has empty token and ca.crt fields. -/
def notReadyBootstrap : BootstrapEnv :=
  { saAttempts := okAttempts, crbAttempts := okAttempts, tokenAttempts := okAttempts,
    tokenSecretGet := .ok { token := "", caCrt := [] } }

/-- C6: Bootstrap readiness check: after the identity, role binding and token
secret upserts succeed, the token secret is re-fetched exactly once by its
derived name (the trace is exactly the three upserts followed by one get, so
no wait or poll precedes the return), and given a successful fetch the
bootstrap returns an error exactly when the token field or the ca.crt field of
the fetched secret is empty. -/
theorem C6_bootstrap_readiness (site : Site) (env : BootstrapEnv)
    (server name : String) (hc : Option HostedCluster) (d : TokenSecretData)
    (hsa : (CreateOrUpdateWithRetries env.saAttempts).2 = none)
    (hcrb : (CreateOrUpdateWithRetries env.crbAttempts).2 = none)
    (htok : (CreateOrUpdateWithRetries env.tokenAttempts).2 = none)
    (hget : env.tokenSecretGet = .ok d) :
    (setupClusterConfig site env server name hc).2 =
      [Effect.upsertServiceAccount site hostedClusterServiceAccountName
         hostedClusterServiceAccountNamespace,
       Effect.upsertClusterRoleBinding site hostedClusterServiceAccountName,
       Effect.upsertTokenSecret site (hostedClusterServiceAccountName ++ "-token")
         hostedClusterServiceAccountNamespace,
       Effect.getTokenSecret site "hyper-ops-admin-token" "kube-system"] ∧
    ((∃ e, (setupClusterConfig site env server name hc).1 = .error e) ↔
      (d.token.length = 0 ∨ d.caCrt.length = 0)) := by
  refine ⟨setupClusterConfig_effects site env server name hc hsa hcrb htok, ?_⟩
  by_cases ht : d.token.length = 0
  · simp [setupClusterConfig, hsa, hcrb, htok, hget, ht]
  · by_cases hca : d.caCrt.length = 0
    · simp [setupClusterConfig, hsa, hcrb, htok, hget, ht, hca]
    · simp [setupClusterConfig, hsa, hcrb, htok, hget, ht, hca]

/-- C6 witness: with an empty token and ca.crt in the fetched secret the
bootstrap reports an error; the trace is the three upserts and one get. -/
theorem C6_bootstrap_readiness_witness :
    (setupClusterConfig Site.hostedSite notReadyBootstrap
      "https://api.example.com:6443" "r1" none).2 =
      [Effect.upsertServiceAccount Site.hostedSite hostedClusterServiceAccountName
         hostedClusterServiceAccountNamespace,
       Effect.upsertClusterRoleBinding Site.hostedSite hostedClusterServiceAccountName,
       Effect.upsertTokenSecret Site.hostedSite (hostedClusterServiceAccountName ++ "-token")
         hostedClusterServiceAccountNamespace,
       Effect.getTokenSecret Site.hostedSite "hyper-ops-admin-token" "kube-system"] ∧
    ((∃ e, (setupClusterConfig Site.hostedSite notReadyBootstrap
        "https://api.example.com:6443" "r1" none).1 = .error e) ↔
      (({ token := "", caCrt := [] } : TokenSecretData).token.length = 0 ∨
       ({ token := "", caCrt := [] } : TokenSecretData).caCrt.length = 0)) :=
  C6_bootstrap_readiness Site.hostedSite notReadyBootstrap
    "https://api.example.com:6443" "r1" none { token := "", caCrt := [] }
    rfl rfl rfl rfl

/-- C10: getServerFromKubeConfig is partial: whenever the parsed cluster list
is non-empty it returns the server of the first entry with no error, and for
an empty parsed cluster list the unguarded index is out of range (a runtime
panic), there being no error branch for that case. -/
theorem C10_getServerFromKubeConfig_unguarded (parsed : Except Err (List NamedCluster)) :
    (∀ c cs, parsed = .ok (c :: cs) → getServerFromKubeConfig parsed = .ok c.server) ∧
    (parsed = .ok [] → getServerFromKubeConfig parsed = .panics) := by
  constructor
  · intro c cs h
    subst h
    rfl
  · intro h
    subst h
    rfl

/-- C10 witness: a one-entry cluster list yields its server; the empty list
panics. -/
theorem C10_getServerFromKubeConfig_unguarded_witness :
    getServerFromKubeConfig (.ok [{ server := "https://api.example.com:6443" }]) =
      .ok "https://api.example.com:6443" ∧
    getServerFromKubeConfig (.ok []) = GoVal.panics :=
  ⟨(C10_getServerFromKubeConfig_unguarded _).1 { server := "https://api.example.com:6443" } [] rfl,
   (C10_getServerFromKubeConfig_unguarded _).2 rfl⟩

/-- C3: Label propagation: on a fully processed reconcile the hosted
ProjectedSecret upsert carries exactly the label map hostedSecretLabels hc,
and pointwise that map gives: cluster for the argocd secret-type key, hosted
for the injected type key, the source value for every other key with the
hyper-ops prefix, and nothing for every key without the prefix. -/
theorem C3_label_propagation (req : Request) (ns0 : String) (env : ReconcileEnv)
    (hc : HostedCluster) (localC hostedC : Cluster) (server : String)
    (hhc : env.hcGet = .ok hc)
    (hdel : hc.deleting = false)
    (hlocal : (setupClusterConfig Site.localSite env.localBootstrap
      localServerURL localClusterName none).1 = .ok localC)
    (hlarg : (CreateOrUpdateWithRetries env.localArgoAttempts).2 = none)
    (hen : labelsGet hc.labels hyperOpsEnabledLabel ≠ some "false")
    (hkc : env.kubeconfigSecretGet = .ok ())
    (hcl : env.clientForCluster = none)
    (hserver : getServerFromKubeConfig env.parsedKubeconfig = .ok server)
    (hhost : (setupClusterConfig Site.hostedSite env.hostedBootstrap
      server hc.name (some hc)).1 = .ok hostedC)
    (hharg : (CreateOrUpdateWithRetries env.hostedArgoAttempts).2 = none) :
    hostedArgoSecrets (reconcile req ns0 env).effects =
      [(hostedC.name, gitOpsNamespaceFor hc ns0, hostedSecretLabels hc,
        argoSecretData hostedC)] ∧
    ∀ k, labelsGet (hostedSecretLabels hc) k =
      if k = argoCDSecretTypeLabel then some argoCDSecretTypeCluster
      else if k = hyperOpsTypeLabel then some "hosted"
      else if strStarts k hyperOpsLabel then labelsGet hc.labels k
      else none := by
  constructor
  · rw [reconcile_enabled_run_full req ns0 env hc localC hostedC server hhc hdel hlocal
      hlarg hen hkc hcl hserver hhost hharg]
    simp [hostedArgoSecrets]
  · intro k
    simp only [hostedSecretLabels]
    by_cases h1 : k = argoCDSecretTypeLabel
    · subst h1
      simp [labelsGet_labelsSet_self]
    · rw [labelsGet_labelsSet_other _ _ _ _ h1, if_neg h1]
      by_cases h2 : k = hyperOpsTypeLabel
      · subst h2
        rw [if_pos rfl]
        exact labelsGet_labelsSet_self _ _ _
      · have h2b : k ≠ "hyper-ops.cloudmonkey.org/type" := h2
        rw [labelsGet_labelsSet_other _ _ _ _ h2b, if_neg h2,
          labelsGet_filter hc.labels (fun s => strStarts s hyperOpsLabel) k]

/-- C3 witness: for the resource with an unrelated team label, the hosted
secret upsert carries hostedSecretLabels, and the team key is absent from the
propagated label map. -/
theorem C3_label_propagation_witness :
    hostedArgoSecrets (reconcile reqR1 initialGitOpsNamespace (happyEnv hcExtraLabel)).effects =
      [((happyHostedCluster hcExtraLabel).name,
        gitOpsNamespaceFor hcExtraLabel initialGitOpsNamespace,
        hostedSecretLabels hcExtraLabel,
        argoSecretData (happyHostedCluster hcExtraLabel))] ∧
    labelsGet (hostedSecretLabels hcExtraLabel) "team" =
      (if "team" = argoCDSecretTypeLabel then some argoCDSecretTypeCluster
       else if "team" = hyperOpsTypeLabel then some "hosted"
       else if strStarts "team" hyperOpsLabel then
         labelsGet hcExtraLabel.labels "team"
       else none) :=
  ⟨(C3_label_propagation reqR1 initialGitOpsNamespace (happyEnv hcExtraLabel)
      hcExtraLabel happyLocalCluster (happyHostedCluster hcExtraLabel)
      "https://api.example.com:6443" rfl rfl rfl rfl (by decide) rfl rfl rfl rfl rfl).1,
   (C3_label_propagation reqR1 initialGitOpsNamespace (happyEnv hcExtraLabel)
      hcExtraLabel happyLocalCluster (happyHostedCluster hcExtraLabel)
      "https://api.example.com:6443" rfl rfl rfl rfl (by decide) rfl rfl rfl rfl rfl).2 "team"⟩

/-- C1 counterexample: resource r1 is first reconciled carrying
gitops-namespace ns-a (from the initial state openshift-gitops), then
reconciled again with the label removed.  The second run still places the
hosted ProjectedSecret in ns-a, not in the documented default: the override
persists in the package-level var across reconciles in which the label is
absent, contradicting the claim. -/
theorem C1_counterexample :
    (hostedArgoSecrets (reconcile reqR1
        (reconcile reqR1 initialGitOpsNamespace (happyEnv hcWithNS)).gitOpsNamespaceAfter
        (happyEnv hcNoNS)).effects).map (fun t => t.2.1) = ["ns-a"] ∧
    "ns-a" ≠ initialGitOpsNamespace := by
  constructor
  · rfl
  · decide

/-- C1 corrected: the hosted ProjectedSecret of a fully processed resource is
placed in gitOpsNamespaceFor hc ns0 where ns0 is the current value of the
package-level namespace var: the label value when the gitops-namespace label
is present, and otherwise the incoming var value unchanged, so an override set
by an earlier reconcile persists and the documented default openshift-gitops
is used only while the var still holds its initial value. -/
theorem C1_target_namespace_selection (req : Request) (ns0 : String)
    (env : ReconcileEnv) (hc : HostedCluster) (localC hostedC : Cluster) (server : String)
    (hhc : env.hcGet = .ok hc)
    (hdel : hc.deleting = false)
    (hlocal : (setupClusterConfig Site.localSite env.localBootstrap
      localServerURL localClusterName none).1 = .ok localC)
    (hlarg : (CreateOrUpdateWithRetries env.localArgoAttempts).2 = none)
    (hen : labelsGet hc.labels hyperOpsEnabledLabel ≠ some "false")
    (hkc : env.kubeconfigSecretGet = .ok ())
    (hcl : env.clientForCluster = none)
    (hserver : getServerFromKubeConfig env.parsedKubeconfig = .ok server)
    (hhost : (setupClusterConfig Site.hostedSite env.hostedBootstrap
      server hc.name (some hc)).1 = .ok hostedC)
    (hharg : (CreateOrUpdateWithRetries env.hostedArgoAttempts).2 = none) :
    (hostedArgoSecrets (reconcile req ns0 env).effects).map (fun t => t.2.1) =
      [gitOpsNamespaceFor hc ns0] ∧
    (reconcile req ns0 env).gitOpsNamespaceAfter = gitOpsNamespaceFor hc ns0 ∧
    (∀ v, labelsGet hc.labels hyperOpsGitopsNamespaceLabel = some v →
      gitOpsNamespaceFor hc ns0 = v) ∧
    (labelsGet hc.labels hyperOpsGitopsNamespaceLabel = none →
      gitOpsNamespaceFor hc ns0 = ns0) := by
  rw [reconcile_enabled_run_full req ns0 env hc localC hostedC server hhc hdel hlocal
    hlarg hen hkc hcl hserver hhost hharg]
  refine ⟨by simp [hostedArgoSecrets], rfl, ?_, ?_⟩
  · intro v hv
    simp [gitOpsNamespaceFor, hv]
  · intro hv
    simp [gitOpsNamespaceFor, hv]

/-- C1 witness: with the label present the hosted secret lands in the
labelled namespace ns-a. -/
theorem C1_target_namespace_selection_witness :
    (hostedArgoSecrets (reconcile reqR1 initialGitOpsNamespace
        (happyEnv hcWithNS)).effects).map (fun t => t.2.1) =
      [gitOpsNamespaceFor hcWithNS initialGitOpsNamespace] ∧
    gitOpsNamespaceFor hcWithNS initialGitOpsNamespace = "ns-a" :=
  ⟨(C1_target_namespace_selection reqR1 initialGitOpsNamespace (happyEnv hcWithNS)
      hcWithNS happyLocalCluster (happyHostedCluster hcWithNS)
      "https://api.example.com:6443" rfl rfl rfl rfl (by decide) rfl rfl rfl rfl rfl).1,
   (C1_target_namespace_selection reqR1 initialGitOpsNamespace (happyEnv hcWithNS)
      hcWithNS happyLocalCluster (happyHostedCluster hcWithNS)
      "https://api.example.com:6443" rfl rfl rfl rfl (by decide) rfl rfl rfl rfl rfl).2.2.1
      "ns-a" rfl⟩

/-- C9 counterexample: reconciling enabled resource r1 carrying an unrelated
team label leaves the fetched in-memory record with a different label map than
fetched: the team key is gone and the type and argocd secret-type keys were
added through the alias taken of its label map, contradicting the claim that
the record label set after Reconcile equals the one fetched. -/
theorem C9_counterexample :
    (reconcile reqR1 initialGitOpsNamespace (happyEnv hcExtraLabel)).hcAfter =
      some { name := "r1",
             labels := [(hyperOpsEnabledLabel, "true"),
                        ("hyper-ops.cloudmonkey.org/type", "hosted"),
                        (argoCDSecretTypeLabel, argoCDSecretTypeCluster)],
             deleting := false } ∧
    (reconcile reqR1 initialGitOpsNamespace (happyEnv hcExtraLabel)).hcAfter ≠
      some hcExtraLabel := by
  constructor
  · rfl
  · decide

/-- C9 corrected: the core never writes the WatchedResource back to the
platform (no effect in any trace addresses it), but the fetched record is not
read-only in memory: on a fully processed reconcile the label filtering and
the two label assignments act through an alias of its label map, so at return
the record holds exactly the hosted-secret label set instead of the fetched
one. -/
theorem C9_hc_inmemory_mutation (req : Request) (ns0 : String)
    (env : ReconcileEnv) (hc : HostedCluster) (localC hostedC : Cluster) (server : String)
    (hhc : env.hcGet = .ok hc)
    (hdel : hc.deleting = false)
    (hlocal : (setupClusterConfig Site.localSite env.localBootstrap
      localServerURL localClusterName none).1 = .ok localC)
    (hlarg : (CreateOrUpdateWithRetries env.localArgoAttempts).2 = none)
    (hen : labelsGet hc.labels hyperOpsEnabledLabel ≠ some "false")
    (hkc : env.kubeconfigSecretGet = .ok ())
    (hcl : env.clientForCluster = none)
    (hserver : getServerFromKubeConfig env.parsedKubeconfig = .ok server)
    (hhost : (setupClusterConfig Site.hostedSite env.hostedBootstrap
      server hc.name (some hc)).1 = .ok hostedC)
    (hharg : (CreateOrUpdateWithRetries env.hostedArgoAttempts).2 = none) :
    (reconcile req ns0 env).hcAfter = some { hc with labels := hostedSecretLabels hc } := by
  rw [reconcile_enabled_run_full req ns0 env hc localC hostedC server hhc hdel hlocal
    hlarg hen hkc hcl hserver hhost hharg]

/-- C9 witness of the corrected statement at the concrete resource. -/
theorem C9_hc_inmemory_mutation_witness :
    (reconcile reqR1 initialGitOpsNamespace (happyEnv hcExtraLabel)).hcAfter =
      some { hcExtraLabel with labels := hostedSecretLabels hcExtraLabel } :=
  C9_hc_inmemory_mutation reqR1 initialGitOpsNamespace (happyEnv hcExtraLabel)
    hcExtraLabel happyLocalCluster (happyHostedCluster hcExtraLabel)
    "https://api.example.com:6443" rfl rfl rfl rfl (by decide) rfl rfl rfl rfl rfl

/-- C8: ProjectedSecret data shape: on a fully processed reconcile, each of
the two upserted ProjectedSecrets carries exactly the three data fields name,
server and config: name is the cluster name, server the API URL, and config is
the json.Marshal image of the ClusterConfig object (bearerToken and
tlsClientConfig with caData) whose bearerToken is the raw token read from the
token secret and whose caData is the URL-safe base64 encoding of its ca.crt
bytes. -/
theorem C8_projected_secret_data_shape (req : Request) (ns0 : String)
    (env : ReconcileEnv) (hc : HostedCluster) (localC hostedC : Cluster)
    (server : String) (dl dh : TokenSecretData)
    (hhc : env.hcGet = .ok hc)
    (hdel : hc.deleting = false)
    (hlocal : (setupClusterConfig Site.localSite env.localBootstrap
      localServerURL localClusterName none).1 = .ok localC)
    (hlarg : (CreateOrUpdateWithRetries env.localArgoAttempts).2 = none)
    (hen : labelsGet hc.labels hyperOpsEnabledLabel ≠ some "false")
    (hkc : env.kubeconfigSecretGet = .ok ())
    (hcl : env.clientForCluster = none)
    (hserver : getServerFromKubeConfig env.parsedKubeconfig = .ok server)
    (hhost : (setupClusterConfig Site.hostedSite env.hostedBootstrap
      server hc.name (some hc)).1 = .ok hostedC)
    (hharg : (CreateOrUpdateWithRetries env.hostedArgoAttempts).2 = none)
    (hgl : env.localBootstrap.tokenSecretGet = .ok dl)
    (hgh : env.hostedBootstrap.tokenSecretGet = .ok dh) :
    localArgoSecrets (reconcile req ns0 env).effects =
      [(localClusterName, gitOpsNamespaceFor hc ns0, localSecretLabels,
        [("name", DataVal.rawStr localClusterName),
         ("server", DataVal.rawStr localServerURL),
         ("config", DataVal.jsonClusterConfig
           { bearerToken := dl.token,
             tlsClientConfig := { caData := base64URLEncode dl.caCrt } })])] ∧
    hostedArgoSecrets (reconcile req ns0 env).effects =
      [(hc.name, gitOpsNamespaceFor hc ns0, hostedSecretLabels hc,
        [("name", DataVal.rawStr hc.name),
         ("server", DataVal.rawStr server),
         ("config", DataVal.jsonClusterConfig
           { bearerToken := dh.token,
             tlsClientConfig := { caData := base64URLEncode dh.caCrt } })])] := by
  obtain ⟨-, -, -, d1, hd1, -, -, hc1⟩ := (setupClusterConfig_ok_iff _ _ _ _ _ _).mp hlocal
  obtain ⟨-, -, -, d2, hd2, -, -, hc2⟩ := (setupClusterConfig_ok_iff _ _ _ _ _ _).mp hhost
  rw [hgl] at hd1
  rw [hgh] at hd2
  have hdl : dl = d1 := by simpa using hd1
  have hdh : dh = d2 := by simpa using hd2
  subst hdl hdh
  rw [reconcile_enabled_run_full req ns0 env hc localC hostedC server hhc hdel hlocal
    hlarg hen hkc hcl hserver hhost hharg]
  subst hc1 hc2
  simp [localArgoSecrets, hostedArgoSecrets, argoSecretData]

/-- C8 witness at the concrete resource under the all-success oracle. -/
theorem C8_projected_secret_data_shape_witness :
    localArgoSecrets (reconcile reqR1 initialGitOpsNamespace (happyEnv hcNoNS)).effects =
      [(localClusterName, gitOpsNamespaceFor hcNoNS initialGitOpsNamespace, localSecretLabels,
        [("name", DataVal.rawStr localClusterName),
         ("server", DataVal.rawStr localServerURL),
         ("config", DataVal.jsonClusterConfig
           { bearerToken := "tok",
             tlsClientConfig := { caData := base64URLEncode [1, 2, 3] } })])] ∧
    hostedArgoSecrets (reconcile reqR1 initialGitOpsNamespace (happyEnv hcNoNS)).effects =
      [(hcNoNS.name, gitOpsNamespaceFor hcNoNS initialGitOpsNamespace,
        hostedSecretLabels hcNoNS,
        [("name", DataVal.rawStr hcNoNS.name),
         ("server", DataVal.rawStr "https://api.example.com:6443"),
         ("config", DataVal.jsonClusterConfig
           { bearerToken := "tok",
             tlsClientConfig := { caData := base64URLEncode [1, 2, 3] } })])] :=
  C8_projected_secret_data_shape reqR1 initialGitOpsNamespace (happyEnv hcNoNS)
    hcNoNS happyLocalCluster (happyHostedCluster hcNoNS) "https://api.example.com:6443"
    { token := "tok", caCrt := [1, 2, 3] } { token := "tok", caCrt := [1, 2, 3] }
    rfl rfl rfl rfl (by decide) rfl rfl rfl rfl rfl rfl rfl

end HyperOps
